import Mathlib

/-!
Verification of the dns-reverse-proxy DNS forwarder.

The Go program is shallowly embedded: pure string manipulation from the
Go standard library (`strings.Split`, `strings.SplitN`, `strings.ToLower`,
`strings.HasSuffix`, `strings.TrimSuffix`, `net.SplitHostPort`) is modelled
by executable Lean functions on `String`/`List Char`; the stateful handler
functions (`route`, `proxy`, `lookupDoH`) are modelled as functions from an
environment (upstream oracles) to a trace of externally visible actions
(failure replies, upstream exchanges, transfer legs, message writes, log
lines).  Go's map iteration order over `routes` is nondeterministic, so the
route table is passed as an association list whose order is universally
quantified; `rand.Intn n` is modelled by an arbitrary `pick % n`.
-/

namespace DnsRevProxy

/-! ## Go string primitives -/

/-- Index of the first occurrence of a character in a character list. -/
def idxOf (c : Char) : List Char → Option Nat
  | [] => none
  | x :: xs => if x = c then some 0 else (idxOf c xs).map (· + 1)

/-- Index of the last occurrence of a character in a character list. -/
def lastIdxOf (c : Char) (l : List Char) : Option Nat :=
  match idxOf c l.reverse with
  | none => none
  | some j => some (l.length - 1 - j)

/-- Go `strings.SplitN(s, sep, 2)` for a one-character separator:
split at the first occurrence only. -/
def goSplitN2 (sep : Char) (s : String) : List String :=
  match idxOf sep s.toList with
  | none => [s]
  | some i => [⟨s.toList.take i⟩, ⟨s.toList.drop (i + 1)⟩]

/-- Helper for `goSplitComma`: `cur` holds the current field reversed. -/
def splitCommaAux (cur : List Char) : List Char → List String
  | [] => [⟨cur.reverse⟩]
  | c :: rest =>
    if c = ',' then ⟨cur.reverse⟩ :: splitCommaAux [] rest
    else splitCommaAux (c :: cur) rest

/-- Go `strings.Split(s, ",")`; note `Split("", ",") = [""]`. -/
def goSplitComma (s : String) : List String := splitCommaAux [] s.toList

/-- Go `strings.HasSuffix`. -/
def goHasSuffix (s suf : String) : Bool := suf.toList.isSuffixOf s.toList

/-- Go `strings.ToLower` on a character (ASCII case mapping; DNS names are
ASCII). -/
def lowerChar (c : Char) : Char :=
  if 'A' ≤ c ∧ c ≤ 'Z' then Char.ofNat (c.toNat + 32) else c

/-- Go `strings.ToLower`. -/
def goToLower (s : String) : String := ⟨s.toList.map lowerChar⟩

/-- Go `strings.TrimSuffix`. -/
def goTrimSuffix (s suf : String) : String :=
  if goHasSuffix s suf then ⟨s.toList.take (s.toList.length - suf.toList.length)⟩ else s

/-- Go `net.SplitHostPort`: `none` models the error return.  Follows the Go
standard-library algorithm: the port starts after the last colon; a host
containing a colon must be bracketed; stray brackets are rejected. -/
def splitHostPort (s : String) : Option (String × String) :=
  let l := s.toList
  match lastIdxOf ':' l with
  | none => none
  | some i =>
    if l.headD ' ' = '[' then
      match idxOf ']' l with
      | none => none
      | some e =>
        if e + 1 = l.length then none
        else if e + 1 = i then
          if (l.drop 1).contains '[' then none
          else if (l.drop (e + 1)).contains ']' then none
          else some (⟨(l.drop 1).take (e - 1)⟩, ⟨l.drop (i + 1)⟩)
        else none
    else
      if (l.take i).contains ':' then none
      else if l.contains '[' then none
      else if l.contains ']' then none
      else some (⟨l.take i⟩, ⟨l.drop (i + 1)⟩)

/-- The host half of `net.SplitHostPort`, as used by
`remote, _, _ := net.SplitHostPort(...)`: the error is discarded and the
host is the empty string when splitting fails. -/
def hostOf (s : String) : String :=
  match splitHostPort s with
  | none => ""
  | some (h, _) => h

/-- Go `strings.HasPrefix(s, "https://")`. -/
def hasHttpsForm (s : String) : Bool := "https://".toList.isPrefixOf s.toList

/-- `strings.Replace(addr, "https://", "", 1)` as applied in `proxy`, where
it is guarded by a `strings.HasPrefix(addr, "https://")` check, so the one
replaced occurrence is the leading one. -/
def stripHttps (s : String) : String :=
  if hasHttpsForm s then ⟨s.toList.drop 8⟩ else s

/-! ## DNS data model (the slice of `github.com/miekg/dns` the program uses) -/

/-- DNS question section entry. -/
structure Question where
  name : String
  qtype : Nat
  qclass : Nat
  deriving Repr, DecidableEq

/-- Resource-record header (`dns.RR_Header`). -/
structure RRHeader where
  name : String
  rrtype : Nat
  rrclass : Nat
  ttl : Nat
  deriving Repr, DecidableEq

/-- Resource record: header plus the textual record data the program fills
in (an address string for A/AAAA, a target for CNAME). -/
structure RR where
  hdr : RRHeader
  rdata : String
  deriving Repr, DecidableEq

/-- DNS message (`dns.Msg`), restricted to the fields the program reads or
writes. -/
structure Msg where
  id : Nat := 0
  response : Bool := false
  opcode : Nat := 0
  authoritative : Bool := false
  recursionDesired : Bool := false
  recursionAvailable : Bool := false
  checkingDisabled : Bool := false
  rcode : Nat := 0
  question : List Question := []
  answer : List RR := []
  deriving Repr, DecidableEq

def typeA : Nat := 1
def typeCNAME : Nat := 5
def typeAAAA : Nat := 28
def typeIXFR : Nat := 251
def typeAXFR : Nat := 252
def classINET : Nat := 1
def opcodeQuery : Nat := 0

def defaultQ : Question := { name := "", qtype := 0, qclass := 0 }

/-- `dns.Type(t).String()` for the types the program logs. -/
def typeToString (t : Nat) : String :=
  if t = typeA then "A"
  else if t = typeCNAME then "CNAME"
  else if t = typeAAAA then "AAAA"
  else if t = typeIXFR then "IXFR"
  else if t = typeAXFR then "AXFR"
  else "TYPE" ++ toString t

/-- `(new dns.Msg).SetReply(req)`: fresh zero message, id copied, marked as
a response with success rcode, recursion-desired/checking-disabled copied
for query-opcode requests, question truncated to the first entry. -/
def setReply (req : Msg) : Msg :=
  { id := req.id
    response := true
    opcode := opcodeQuery
    recursionDesired := if req.opcode = opcodeQuery then req.recursionDesired else false
    checkingDisabled := if req.opcode = opcodeQuery then req.checkingDisabled else false
    rcode := 0
    question := req.question.take 1
    answer := [] }

/-- `isTransfer`: some question has type AXFR or IXFR. -/
def isTransfer (req : Msg) : Bool :=
  req.question.any (fun q => q.qtype = typeIXFR || q.qtype = typeAXFR)

/-! ## Startup configuration (`main`) -/

/-- `transferIPs = strings.Split(*allowTransfer, ",")`. -/
def buildTransferIPs (allowTransferFlag : String) : List String :=
  goSplitComma allowTransferFlag

/-- A backend passes `main`'s validation: `net.SplitHostPort` succeeds with
nonempty host and port. -/
def validBackend (b : String) : Bool :=
  match splitHostPort b with
  | none => false
  | some (h, p) => h ≠ "" && p ≠ ""

/-- The malformedness conditions `main` fatals on for one `-route` entry:
missing `=`, empty domain, empty endpoint list, or an endpoint failing
`net.SplitHostPort` validation. -/
def malformedEntry (e : String) : Bool :=
  match goSplitN2 '=' e with
  | [dom, eps] => dom = "" || eps = "" || (goSplitComma eps).any (fun b => !validBackend b)
  | _ => true

/-- One iteration of `main`'s route-building loop: split at the first `=`,
reject empty halves, validate every backend, then append a trailing dot if
absent and lower-case the domain to form the stored key. -/
def parseRouteEntry (e : String) : Except String (String × List String) :=
  match goSplitN2 '=' e with
  | [dom, eps] =>
    if dom = "" || eps = "" then
      Except.error "invalid -route, must be domain=host:port,[host:port,...]"
    else
      let backends := goSplitComma eps
      if backends.all validBackend then
        let dom' := if goHasSuffix dom "." then dom else dom ++ "."
        Except.ok (goToLower dom', backends)
      else Except.error "invalid host:port"
  | _ => Except.error "invalid -route, must be domain=host:port,[host:port,...]"

/-- `routes[key] = backends` on an association list: overwrite an existing
key, otherwise append. -/
def insertRoute (k : String) (bs : List String) (acc : List (String × List String)) :
    List (String × List String) :=
  if acc.any (fun kv => kv.1 = k) then
    acc.map (fun kv => if kv.1 = k then (k, bs) else kv)
  else acc ++ [(k, bs)]

/-- `main`'s loop over the repeated `-route` flags, stopping fatally at the
first malformed entry. -/
def buildRoutesAux (acc : List (String × List String)) :
    List String → Except String (List (String × List String))
  | [] => Except.ok acc
  | e :: rest =>
    match parseRouteEntry e with
    | Except.error m => Except.error m
    | Except.ok (k, bs) => buildRoutesAux (insertRoute k bs acc) rest

/-- Route-table construction from the `-route` flag values; `Except.error`
models `log.Fatal`. -/
def buildRoutes (routeLists : List String) : Except String (List (String × List String)) :=
  buildRoutesAux [] routeLists

/-! ## Runtime model -/

/-- Inbound/outbound transport; `proxy` derives it from the type of the
client's remote address. -/
inductive Transport where
  | udp
  | tcp
  deriving Repr, DecidableEq

/-- Externally visible actions of the handler, in order of occurrence:
`handleFailed` is `dns.HandleFailed` (a SERVFAIL reply), `transferIn`/
`transferOut` the two zone-transfer legs, `exchange` a classic upstream
exchange over the given transport, `writeMsg` a reply written to the
client, `logLine` a line printed to standard output by the logging
goroutine. -/
inductive Action where
  | handleFailed
  | transferIn (addr : String)
  | transferOut
  | exchange (addr : String) (transport : Transport)
  | writeMsg (m : Msg)
  | logLine (line : String)
  deriving Repr, DecidableEq

/-- The environment: results of every upstream interaction, plus the
current formatted epoch time.  `none` models a Go error return. -/
structure Env where
  transferInOk : String → Bool
  transferOutOk : String → Bool
  exchangeResult : String → Transport → Option Msg
  dohA : String → String → Option (List String)
  dohAAAA : String → String → Option (List String)
  dohCNAME : String → String → Option (List String)
  now : String

/-- `allowed`: non-transfer queries pass unconditionally; a transfer query
passes iff the host half of the client address equals some configured
transfer IP (the split error is discarded, leaving an empty host). -/
def allowed (transferIPs : List String) (remoteAddr : String) (req : Msg) : Bool :=
  if !isTransfer req then true
  else transferIPs.any (fun ip => ip = hostOf remoteAddr)

/-- `pdnsLog`: the passive-DNS record, all fields strings, zero value the
empty string. -/
structure PdnsLog where
  timestamp : String := ""
  dnsClient : String := ""
  dnsServer : String := ""
  rrClass : String := ""
  query : String := ""
  queryType : String := ""
  answer : String := ""
  ttl : String := ""
  count : String := ""
  deriving Repr, DecidableEq

/-- `pdnsLog.String()`: the nine fields joined by `||`. -/
def PdnsLog.toLine (p : PdnsLog) : String :=
  String.intercalate "||"
    [p.timestamp, p.dnsClient, p.dnsServer, p.rrClass, p.query, p.queryType,
     p.answer, p.ttl, p.count]

/-- The logging goroutine at the end of `proxy`: one `pdnsLog` line per
answer record of the forwarded response, filling timestamp, client,
server, query name, query type and TTL, and leaving class, answer and
count at their zero value. -/
def logActions (env : Env) (remoteAddr addr : String) (req : Msg) (resp : Msg) :
    List Action :=
  resp.answer.map (fun r =>
    let q := req.question.headD defaultQ
    Action.logLine (PdnsLog.toLine
      { dnsClient := remoteAddr
        timestamp := env.now
        dnsServer := addr
        query := goToLower q.name
        queryType := typeToString q.qtype
        ttl := toString r.hdr.ttl }))

/-- `lookupDoH`: resolve the first question through the DoH resolver at
`addr`, synthesize an authoritative reply with recursion-available
cleared, attach whatever records resolved (a failed per-type lookup is
logged and leaves the answer empty), write the reply to the client, and
return it.  The returned trace holds the client-facing write. -/
def lookupDoH (env : Env) (addr : String) (req : Msg) : Msg × List Action :=
  let q := req.question.headD defaultQ
  let lcName := goToLower q.name
  let domain := goTrimSuffix lcName "."
  let m1 := { setReply req with recursionAvailable := false, authoritative := true }
  let answers : List RR :=
    if q.qtype = typeA then
      match env.dohA addr domain with
      | none => []
      | some ans => ans.map (fun a =>
          { hdr := { name := lcName, rrtype := q.qtype, rrclass := classINET, ttl := 0 }
            rdata := a })
    else if q.qtype = typeAAAA then
      match env.dohAAAA addr domain with
      | none => []
      | some ans => ans.map (fun a =>
          { hdr := { name := lcName, rrtype := q.qtype, rrclass := classINET, ttl := 0 }
            rdata := a })
    else if q.qtype = typeCNAME then
      match env.dohCNAME addr domain with
      | none => []
      | some ans => ans.map (fun a =>
          { hdr := { name := lcName, rrtype := q.qtype, rrclass := classINET, ttl := 0 }
            rdata := if goHasSuffix a "." then a else a ++ "." })
    else []
  let m := { m1 with answer := m1.answer ++ answers }
  (m, [Action.writeMsg m])

/-- `proxy`: transfer queries require TCP and run the two transfer legs,
failing with no retry on either leg's error; non-transfer queries go to a
DoH endpoint (https:// form, address stripped) or a classic exchange over
the inbound transport, failing on exchange error, and on success the
response is written to the client and handed to the logging goroutine. -/
def proxy (env : Env) (remoteAddr addr : String) (transport : Transport) (req : Msg) :
    List Action :=
  if isTransfer req then
    if transport ≠ Transport.tcp then [Action.handleFailed]
    else if !env.transferInOk addr then [Action.transferIn addr, Action.handleFailed]
    else if !env.transferOutOk addr then
      [Action.transferIn addr, Action.transferOut, Action.handleFailed]
    else [Action.transferIn addr, Action.transferOut]
  else if hasHttpsForm addr then
    let addr2 := stripHttps addr
    let m := (lookupDoH env addr2 req).1
    (lookupDoH env addr2 req).2 ++ [Action.writeMsg m] ++ logActions env remoteAddr addr2 req m
  else
    match env.exchangeResult addr transport with
    | none => [Action.exchange addr transport, Action.handleFailed]
    | some resp =>
      [Action.exchange addr transport, Action.writeMsg resp] ++
        logActions env remoteAddr addr req resp

/-- The lower-cased name of the first question, as `route` computes it. -/
def lcNameOf (req : Msg) : String := goToLower (req.question.headD defaultQ).name

/-- `route`: reject question-less or disallowed queries; otherwise scan the
route table in iteration order (`routesList`) for the first entry whose
suffix the lower-cased query name ends with and proxy to one of its
backends (`pick` models `rand.Intn`); with no match, proxy to the default
server if configured, else fail. -/
def route (env : Env) (routesList : List (String × List String)) (defaultServer : String)
    (pick : Nat) (transport : Transport) (transferIPs : List String)
    (remoteAddr : String) (req : Msg) : List Action :=
  if req.question.isEmpty || !allowed transferIPs remoteAddr req then [Action.handleFailed]
  else
    match routesList.find? (fun e => goHasSuffix (lcNameOf req) e.1) with
    | some (_, addrs) =>
      let addr := addrs.getD (if addrs.length > 1 then pick % addrs.length else 0) ""
      proxy env remoteAddr addr transport req
    | none =>
      if defaultServer = "" then [Action.handleFailed]
      else proxy env remoteAddr defaultServer transport req

/-! ## Sample values for concrete instantiations -/

/-- Environment in which every upstream interaction fails. -/
def envAllFail : Env where
  transferInOk := fun _ => false
  transferOutOk := fun _ => false
  exchangeResult := fun _ _ => none
  dohA := fun _ _ => none
  dohAAAA := fun _ _ => none
  dohCNAME := fun _ _ => none
  now := "1322849924.408856"

/-- A sample upstream answer record. -/
def sampleRR : RR :=
  { hdr := { name := "foo.example.com.", rrtype := typeA, rrclass := classINET, ttl := 300 }
    rdata := "93.184.216.34" }

/-- A sample upstream response carrying one answer record. -/
def sampleResp : Msg := { answer := [sampleRR] }

/-- Environment in which the classic exchange succeeds with `sampleResp`
and both transfer legs succeed. -/
def envOk : Env where
  transferInOk := fun _ => true
  transferOutOk := fun _ => true
  exchangeResult := fun _ _ => some sampleResp
  dohA := fun _ _ => some ["93.184.216.34"]
  dohAAAA := fun _ _ => none
  dohCNAME := fun _ _ => none
  now := "1322849924.408856"

/-- A mixed-case A query for foo.example.com. -/
def sampleAReq : Msg :=
  { question := [{ name := "Foo.Example.COM.", qtype := typeA, qclass := classINET }] }

/-- An AXFR (zone transfer) query. -/
def sampleAxfrReq : Msg :=
  { question := [{ name := "example.com.", qtype := typeAXFR, qclass := classINET }] }

/-! ## Claim theorems -/

/-- C2: `allowed` returns true for every query without an AXFR/IXFR
question; for a transfer query it returns true iff the host portion of the
client address (port stripped, empty on a split error) string-equals some
entry of the transfer allow list — plain string equality, no wildcard or
subnet matching. -/
theorem allowed_characterization (ips : List String) (remoteAddr : String) (req : Msg) :
    (isTransfer req = false → allowed ips remoteAddr req = true) ∧
    (isTransfer req = true →
      (allowed ips remoteAddr req = true ↔ hostOf remoteAddr ∈ ips)) := by
  constructor
  · intro h
    simp [allowed, h]
  · intro h
    simp [allowed, h, List.any_eq_true]

/-- Witness for C2: the AXFR query is admitted exactly for the allow-listed
client, and the plain A query is admitted with an empty allow list. -/
theorem allowed_characterization_witness :
    allowed ["1.2.3.4"] "1.2.3.4:9999" sampleAxfrReq = true ∧
    allowed [] "5.6.7.8:53" sampleAReq = true :=
  ⟨((allowed_characterization ["1.2.3.4"] "1.2.3.4:9999" sampleAxfrReq).2 (by decide)).mpr
      (by decide),
   (allowed_characterization [] "5.6.7.8:53" sampleAReq).1 (by decide)⟩

/-- C10: an empty `-allow-transfer` flag yields the one-element allow list
containing the empty string, so a transfer query from a client whose
remote address `net.SplitHostPort` cannot split (empty host) is allowed. -/
theorem emptyAllowTransfer_permits_unsplittable (remoteAddr : String) (req : Msg)
    (ht : isTransfer req = true) (hs : splitHostPort remoteAddr = none) :
    buildTransferIPs "" = [""] ∧
    allowed (buildTransferIPs "") remoteAddr req = true := by
  refine ⟨rfl, ?_⟩
  simp [allowed, ht, buildTransferIPs, goSplitComma, splitCommaAux, hostOf, hs]

/-- Witness for C10: the AXFR query from the unsplittable address
`"nocolon"` is allowed under the empty allow-transfer configuration. -/
theorem emptyAllowTransfer_permits_unsplittable_witness :
    buildTransferIPs "" = [""] ∧
    allowed (buildTransferIPs "") "nocolon" sampleAxfrReq = true :=
  emptyAllowTransfer_permits_unsplittable "nocolon" sampleAxfrReq (by decide) (by decide)

/-- C3: a transfer query over UDP gets an immediate failure reply and no
transfer leg is attempted against any backend; over TCP the transfer
session is opened, and a failure of the inbound or the outbound leg yields
a failure reply with no retry (each trace holds at most one inbound
leg). -/
theorem proxy_transfer_gating (env : Env) (remote addr : String) (req : Msg)
    (ht : isTransfer req = true) :
    proxy env remote addr Transport.udp req = [Action.handleFailed] ∧
    (env.transferInOk addr = false →
      proxy env remote addr Transport.tcp req =
        [Action.transferIn addr, Action.handleFailed]) ∧
    (env.transferInOk addr = true → env.transferOutOk addr = false →
      proxy env remote addr Transport.tcp req =
        [Action.transferIn addr, Action.transferOut, Action.handleFailed]) ∧
    (env.transferInOk addr = true → env.transferOutOk addr = true →
      proxy env remote addr Transport.tcp req =
        [Action.transferIn addr, Action.transferOut]) := by
  refine ⟨?_, ?_, ?_, ?_⟩
  · simp [proxy, ht]
  · intro h1
    simp [proxy, ht, h1]
  · intro h1 h2
    simp [proxy, ht, h1, h2]
  · intro h1 h2
    simp [proxy, ht, h1, h2]

/-- Witness for C3: concrete traces of the AXFR query over UDP (immediate
failure) and over TCP with a failing inbound leg (one attempt, then
failure). -/
theorem proxy_transfer_gating_witness :
    proxy envAllFail "10.0.0.1:999" "9.9.9.9:53" Transport.udp sampleAxfrReq =
      [Action.handleFailed] ∧
    proxy envAllFail "10.0.0.1:999" "9.9.9.9:53" Transport.tcp sampleAxfrReq =
      [Action.transferIn "9.9.9.9:53", Action.handleFailed] ∧
    proxy envOk "10.0.0.1:999" "9.9.9.9:53" Transport.tcp sampleAxfrReq =
      [Action.transferIn "9.9.9.9:53", Action.transferOut] :=
  ⟨(proxy_transfer_gating envAllFail "10.0.0.1:999" "9.9.9.9:53" sampleAxfrReq (by decide)).1,
   (proxy_transfer_gating envAllFail "10.0.0.1:999" "9.9.9.9:53" sampleAxfrReq
      (by decide)).2.1 (by decide),
   (proxy_transfer_gating envOk "10.0.0.1:999" "9.9.9.9:53" sampleAxfrReq
      (by decide)).2.2.2 (by decide) (by decide)⟩

/-- C6: a non-transfer query to a classic endpoint is exchanged over the
same transport it arrived on; on failure the client gets a failure reply
with no retry and no alternate backend (the trace holds exactly one
exchange, to the given backend), and on success the upstream response is
written to the client verbatim. -/
theorem proxy_classic_exchange (env : Env) (remote addr : String) (tr : Transport)
    (req resp : Msg)
    (hnt : isTransfer req = false) (hnh : hasHttpsForm addr = false) :
    (env.exchangeResult addr tr = none →
      proxy env remote addr tr req = [Action.exchange addr tr, Action.handleFailed]) ∧
    (env.exchangeResult addr tr = some resp →
      proxy env remote addr tr req =
        [Action.exchange addr tr, Action.writeMsg resp] ++
          logActions env remote addr req resp) := by
  constructor
  · intro h
    simp [proxy, hnt, hnh, h]
  · intro h
    simp [proxy, hnt, hnh, h]

/-- Witness for C6: the concrete A query over UDP is exchanged over UDP
with the chosen backend, failing with a failure reply in the failing
environment and relaying `sampleResp` verbatim in the succeeding one. -/
theorem proxy_classic_exchange_witness :
    proxy envAllFail "10.0.0.1:999" "8.8.8.8:53" Transport.udp sampleAReq =
      [Action.exchange "8.8.8.8:53" Transport.udp, Action.handleFailed] ∧
    proxy envOk "10.0.0.1:999" "8.8.8.8:53" Transport.udp sampleAReq =
      [Action.exchange "8.8.8.8:53" Transport.udp, Action.writeMsg sampleResp] ++
        logActions envOk "10.0.0.1:999" "8.8.8.8:53" sampleAReq sampleResp :=
  ⟨(proxy_classic_exchange envAllFail "10.0.0.1:999" "8.8.8.8:53" Transport.udp
      sampleAReq sampleResp (by decide) (by decide)).1 (by decide),
   (proxy_classic_exchange envOk "10.0.0.1:999" "8.8.8.8:53" Transport.udp
      sampleAReq sampleResp (by decide) (by decide)).2 (by decide)⟩

/-- C5: a DoH-resolved reply is synthesized authoritative with
recursion-available cleared, and is always written to the client exactly
once by `lookupDoH` itself — never a failure reply; when the per-type
lookup for the queried type fails, the reply's answer section is empty
(the failed type's records are omitted). -/
theorem lookupDoH_flags_and_omission (env : Env) (addr : String) (req : Msg) :
    (lookupDoH env addr req).1.authoritative = true ∧
    (lookupDoH env addr req).1.recursionAvailable = false ∧
    (lookupDoH env addr req).2 = [Action.writeMsg (lookupDoH env addr req).1] ∧
    ((req.question.headD defaultQ).qtype = typeA →
      env.dohA addr (goTrimSuffix (lcNameOf req) ".") = none →
      (lookupDoH env addr req).1.answer = []) ∧
    ((req.question.headD defaultQ).qtype = typeAAAA →
      env.dohAAAA addr (goTrimSuffix (lcNameOf req) ".") = none →
      (lookupDoH env addr req).1.answer = []) ∧
    ((req.question.headD defaultQ).qtype = typeCNAME →
      env.dohCNAME addr (goTrimSuffix (lcNameOf req) ".") = none →
      (lookupDoH env addr req).1.answer = []) := by
  refine ⟨rfl, rfl, rfl, ?_, ?_, ?_⟩
  · intro hq hl
    simp only [lookupDoH, lcNameOf, setReply] at hl ⊢
    rw [hq]
    simp only [List.headD_eq_head?_getD] at hl
    simp [hl, typeA, typeAAAA, typeCNAME]
  · intro hq hl
    simp only [lookupDoH, lcNameOf, setReply] at hl ⊢
    rw [hq]
    simp only [List.headD_eq_head?_getD] at hl
    simp [hl, typeA, typeAAAA, typeCNAME]
  · intro hq hl
    simp only [lookupDoH, lcNameOf, setReply] at hl ⊢
    rw [hq]
    simp only [List.headD_eq_head?_getD] at hl
    simp [hl, typeA, typeAAAA, typeCNAME]

/-- Witness for C5: with the AAAA lookup failing, the A query for
foo.example.com. still gets a written (non-failure) reply, authoritative,
recursion-available cleared; the same query with a failing A lookup gets
an empty answer section. -/
theorem lookupDoH_flags_and_omission_witness :
    (lookupDoH envOk "dns.alidns.com" sampleAReq).1.authoritative = true ∧
    (lookupDoH envAllFail "dns.alidns.com" sampleAReq).1.recursionAvailable = false ∧
    (lookupDoH envAllFail "dns.alidns.com" sampleAReq).2 =
      [Action.writeMsg (lookupDoH envAllFail "dns.alidns.com" sampleAReq).1] ∧
    (lookupDoH envAllFail "dns.alidns.com" sampleAReq).1.answer = [] :=
  ⟨(lookupDoH_flags_and_omission envOk "dns.alidns.com" sampleAReq).1,
   (lookupDoH_flags_and_omission envAllFail "dns.alidns.com" sampleAReq).2.1,
   (lookupDoH_flags_and_omission envAllFail "dns.alidns.com" sampleAReq).2.2.1,
   (lookupDoH_flags_and_omission envAllFail "dns.alidns.com" sampleAReq).2.2.2.1
     (by decide) (by decide)⟩

/-- Recognizer for client-facing message writes in a trace. -/
def Action.isWrite : Action → Bool
  | Action.writeMsg _ => true
  | _ => false

/-- The write actions of the trace returned by `lookupDoH`: exactly the
one write of the synthesized reply. -/
theorem lookupDoH_trace (env : Env) (addr : String) (req : Msg) :
    (lookupDoH env addr req).2 = [Action.writeMsg (lookupDoH env addr req).1] := rfl

/-- The logging goroutine emits no client-facing writes. -/
theorem filter_isWrite_logActions (env : Env) (remote addr : String) (req resp : Msg) :
    (logActions env remote addr req resp).filter Action.isWrite = [] := by
  unfold logActions
  induction resp.answer with
  | nil => rfl
  | cons r t ih => simp [Action.isWrite]

/-- C9: for a DoH query, the synthesized reply is written to the client
twice — once inside `lookupDoH` and once again by `proxy` after it
returns: the trace's write actions are exactly two writes of the same
message. -/
theorem proxy_doh_double_write (env : Env) (remote addr : String) (tr : Transport)
    (req : Msg) (hnt : isTransfer req = false) (hh : hasHttpsForm addr = true) :
    (proxy env remote addr tr req).filter Action.isWrite =
      [Action.writeMsg (lookupDoH env (stripHttps addr) req).1,
       Action.writeMsg (lookupDoH env (stripHttps addr) req).1] := by
  simp [proxy, hnt, hh, Action.isWrite, filter_isWrite_logActions, lookupDoH_trace]

/-- Witness for C9: the concrete DoH query's trace contains exactly two
writes of the one synthesized reply. -/
theorem proxy_doh_double_write_witness :
    (proxy envOk "10.0.0.1:999" "https://dns.alidns.com" Transport.udp sampleAReq).filter
        Action.isWrite =
      [Action.writeMsg (lookupDoH envOk "dns.alidns.com" sampleAReq).1,
       Action.writeMsg (lookupDoH envOk "dns.alidns.com" sampleAReq).1] := by
  have h := proxy_doh_double_write envOk "10.0.0.1:999" "https://dns.alidns.com"
    Transport.udp sampleAReq (by decide) (by decide)
  simpa [stripHttps] using h

/-- C8: whenever a response is forwarded (classic exchange success, or the
DoH path), the trace carries exactly one log line per answer record of the
forwarded response, each line being the nine pipe-joined fields
timestamp, client address, server address, class, query name, query type,
answer, TTL and count, in that order (class, answer and count are left at
the `pdnsLog` zero value, the empty string). -/
theorem proxy_pdns_logging (env : Env) (remote addr : String) (tr : Transport)
    (req resp : Msg) (hnt : isTransfer req = false) :
    (hasHttpsForm addr = false → env.exchangeResult addr tr = some resp →
      proxy env remote addr tr req =
        [Action.exchange addr tr, Action.writeMsg resp] ++
          resp.answer.map (fun r => Action.logLine (String.intercalate "||"
            [env.now, remote, addr, "", lcNameOf req,
             typeToString (req.question.headD defaultQ).qtype, "",
             toString r.hdr.ttl, ""]))) ∧
    (hasHttpsForm addr = true →
      proxy env remote addr tr req =
        [Action.writeMsg (lookupDoH env (stripHttps addr) req).1,
         Action.writeMsg (lookupDoH env (stripHttps addr) req).1] ++
          (lookupDoH env (stripHttps addr) req).1.answer.map
            (fun r => Action.logLine (String.intercalate "||"
              [env.now, remote, stripHttps addr, "", lcNameOf req,
               typeToString (req.question.headD defaultQ).qtype, "",
               toString r.hdr.ttl, ""]))) := by
  constructor
  · intro hnh hex
    simp [proxy, hnt, hnh, hex, logActions, PdnsLog.toLine, lcNameOf]
  · intro hh
    simp [proxy, hnt, hh, lookupDoH_trace, logActions, PdnsLog.toLine, lcNameOf]

/-- Witness for C8: the concrete successful exchange produces exactly one
log line for the single answer record, with the nine fields in order. -/
theorem proxy_pdns_logging_witness :
    proxy envOk "10.0.0.1:999" "8.8.8.8:53" Transport.udp sampleAReq =
      [Action.exchange "8.8.8.8:53" Transport.udp, Action.writeMsg sampleResp,
       Action.logLine
         "1322849924.408856||10.0.0.1:999||8.8.8.8:53||||foo.example.com.||A||||300||"] := by
  have h := (proxy_pdns_logging envOk "10.0.0.1:999" "8.8.8.8:53" Transport.udp
    sampleAReq sampleResp (by decide)).1 (by decide) (by decide)
  rw [h]
  decide

/-- C1: with the `.com.` entry ahead of the `.example.com.` entry in the
map's iteration order, the query for `foo.example.com.` is proxied to the
`.com.` backend `1.1.1.1:53`, which is not a backend of the longer,
more specific `.example.com.` entry — longest-suffix routing is not
enforced by the code. -/
theorem route_first_match_not_longest :
    route envAllFail [(".com.", ["1.1.1.1:53"]), (".example.com.", ["2.2.2.2:53"])]
        "8.8.8.8:53" 0 Transport.udp [""] "10.0.0.1:999" sampleAReq =
      [Action.exchange "1.1.1.1:53" Transport.udp, Action.handleFailed] ∧
    "1.1.1.1:53" ∉ ["2.2.2.2:53"] := by
  constructor
  · decide
  · decide

/-- C4: for a valid, allowed query whose lower-cased name ends with some
configured suffix, the dispatcher proxies to a backend drawn from the
backend list of a matching route entry; with no matching suffix it proxies
to the default server when one is configured and fails otherwise. -/
theorem route_backend_membership (env : Env) (routesList : List (String × List String))
    (defaultServer : String) (pick : Nat) (tr : Transport) (ips : List String)
    (remote : String) (req : Msg)
    (hq : req.question ≠ []) (ha : allowed ips remote req = true)
    (hne : ∀ e ∈ routesList, e.2 ≠ []) :
    ((∃ e ∈ routesList, goHasSuffix (lcNameOf req) e.1 = true) →
      ∃ e ∈ routesList, goHasSuffix (lcNameOf req) e.1 = true ∧
        ∃ a ∈ e.2, route env routesList defaultServer pick tr ips remote req =
          proxy env remote a tr req) ∧
    ((∀ e ∈ routesList, goHasSuffix (lcNameOf req) e.1 = false) →
      (defaultServer = "" →
        route env routesList defaultServer pick tr ips remote req = [Action.handleFailed]) ∧
      (defaultServer ≠ "" →
        route env routesList defaultServer pick tr ips remote req =
          proxy env remote defaultServer tr req)) := by
  have hcond : (req.question.isEmpty || !allowed ips remote req) = false := by
    simp [List.isEmpty_eq_false.mpr hq, ha]
  constructor
  · intro hex
    have hsome : (routesList.find? (fun e => goHasSuffix (lcNameOf req) e.1)).isSome := by
      rw [List.find?_isSome]
      exact hex
    obtain ⟨e₀, hfind⟩ := Option.isSome_iff_exists.mp hsome
    have hmem : e₀ ∈ routesList := List.mem_of_find?_eq_some hfind
    have hsuf : goHasSuffix (lcNameOf req) e₀.1 = true := by
      have h := List.find?_some hfind
      simpa using h
    have hlen : 0 < e₀.2.length := List.length_pos.mpr (hne e₀ hmem)
    refine ⟨e₀, hmem, hsuf, ?_⟩
    obtain ⟨name₀, addrs₀⟩ := e₀
    have hidx : (if addrs₀.length > 1 then pick % addrs₀.length else 0) < addrs₀.length := by
      split
      · exact Nat.mod_lt pick hlen
      · exact hlen
    refine ⟨addrs₀.getD (if addrs₀.length > 1 then pick % addrs₀.length else 0) "", ?_, ?_⟩
    · rw [List.getD_eq_getElem?_getD, List.getElem?_eq_getElem hidx]
      exact List.getElem_mem hidx
    · simp only [route, hcond, Bool.false_eq_true, if_false, hfind]
  · intro hnone
    have hfind : routesList.find? (fun e => goHasSuffix (lcNameOf req) e.1) = none := by
      rw [List.find?_eq_none]
      intro e he
      simp [hnone e he]
    constructor
    · intro hd
      simp only [route, hcond, Bool.false_eq_true, if_false, hfind, hd, if_true]
    · intro hd
      simp only [route, hcond, Bool.false_eq_true, if_false, hfind]
      rw [if_neg hd]

/-- Witness for C4: on the one-entry table the backend chosen for the
matching query is a member of that entry's backend list, and with no match
the empty default yields a failure trace. -/
theorem route_backend_membership_witness :
    (∃ e ∈ [(".example.com.", ["2.2.2.2:53", "3.3.3.3:53"])],
      goHasSuffix (lcNameOf sampleAReq) e.1 = true ∧
      ∃ a ∈ e.2, route envAllFail [(".example.com.", ["2.2.2.2:53", "3.3.3.3:53"])]
          "8.8.8.8:53" 1 Transport.udp [""] "10.0.0.1:999" sampleAReq =
        proxy envAllFail "10.0.0.1:999" a Transport.udp sampleAReq) ∧
    route envAllFail [(".example.net.", ["2.2.2.2:53"])] "" 1 Transport.udp [""]
      "10.0.0.1:999" sampleAReq = [Action.handleFailed] :=
  ⟨(route_backend_membership envAllFail [(".example.com.", ["2.2.2.2:53", "3.3.3.3:53"])]
      "8.8.8.8:53" 1 Transport.udp [""] "10.0.0.1:999" sampleAReq
      (by decide) (by decide) (by decide)).1 (by decide),
   ((route_backend_membership envAllFail [(".example.net.", ["2.2.2.2:53"])]
      "" 1 Transport.udp [""] "10.0.0.1:999" sampleAReq
      (by decide) (by decide) (by decide)).2 (by decide)).1 rfl⟩

/-- A malformed `-route` entry makes `parseRouteEntry` fail. -/
theorem parseRouteEntry_error_of_malformed (e : String) (h : malformedEntry e = true) :
    ∃ m, parseRouteEntry e = Except.error m := by
  unfold malformedEntry at h
  unfold parseRouteEntry
  cases hs : goSplitN2 '=' e with
  | nil => exact ⟨_, rfl⟩
  | cons a t =>
    cases t with
    | nil => rw [hs] at h; exact ⟨_, rfl⟩
    | cons b t2 =>
      cases t2 with
      | cons c t3 => exact ⟨_, rfl⟩
      | nil =>
        rw [hs] at h
        by_cases he : a = "" ∨ b = ""
        · rcases he with he | he
          · simp [he]
          · simp [he]
        · push_neg at he
          have hall : ¬ (goSplitComma b).all validBackend = true := by
            simp [he.1, he.2, List.any_eq_true] at h
            obtain ⟨x, hx, hxv⟩ := h
            rw [List.all_eq_true]
            intro hforall
            have := hforall x hx
            simp [this] at hxv
          simp [he.1, he.2, hall]

/-- A `-route` entry accepted by `parseRouteEntry` stores as key its domain
half with a trailing dot appended when absent and then lower-cased, and as
value the comma-split endpoint list. -/
theorem parseRouteEntry_ok_key (e k : String) (bs : List String)
    (h : parseRouteEntry e = Except.ok (k, bs)) :
    ∃ dom eps, goSplitN2 '=' e = [dom, eps] ∧
      k = goToLower (if goHasSuffix dom "." then dom else dom ++ ".") ∧
      bs = goSplitComma eps := by
  unfold parseRouteEntry at h
  cases hs : goSplitN2 '=' e with
  | nil => rw [hs] at h; cases h
  | cons a t =>
    cases t with
    | nil => rw [hs] at h; cases h
    | cons b t2 =>
      cases t2 with
      | cons c t3 => rw [hs] at h; cases h
      | nil =>
        rw [hs] at h
        refine ⟨a, b, rfl, ?_⟩
        by_cases he : a = "" ∨ b = ""
        · rcases he with he | he
          · simp [he] at h
          · simp [he] at h
        · push_neg at he
          by_cases hall : (goSplitComma b).all validBackend = true
          · simp [he.1, he.2, hall] at h
            exact ⟨h.1.symm, h.2.symm⟩
          · simp [he.1, he.2, hall] at h

/-- Membership after a map-style insert: the element is the inserted pair
or was already present. -/
theorem insertRoute_mem (k : String) (bs : List String)
    (acc : List (String × List String)) (kv : String × List String)
    (h : kv ∈ insertRoute k bs acc) : kv = (k, bs) ∨ kv ∈ acc := by
  unfold insertRoute at h
  split at h
  · obtain ⟨kv', hkv', heq⟩ := List.mem_map.mp h
    by_cases hk : kv'.1 = k
    · rw [if_pos hk] at heq
      left; exact heq.symm
    · rw [if_neg hk] at heq
      right; rw [← heq]; exact hkv'
  · rcases List.mem_append.mp h with h' | h'
    · right; exact h'
    · left; simpa using h'

/-- A malformed entry anywhere in the flag list makes the whole
construction fail. -/
theorem buildRoutesAux_error (rl : List String) (acc : List (String × List String))
    (e : String) (he : e ∈ rl) (m : String) (hperr : parseRouteEntry e = Except.error m) :
    ∃ m', buildRoutesAux acc rl = Except.error m' := by
  induction rl generalizing acc with
  | nil => cases he
  | cons x rest ih =>
    rcases List.mem_cons.mp he with rfl | he'
    · refine ⟨m, ?_⟩
      unfold buildRoutesAux
      rw [hperr]
    · unfold buildRoutesAux
      cases hx : parseRouteEntry x with
      | error m'' => exact ⟨m'', rfl⟩
      | ok p =>
        obtain ⟨k, bs⟩ := p
        exact ih (insertRoute k bs acc) he'

/-- Every pair of a successfully built table either was in the initial
accumulator or is the parse of some processed entry. -/
theorem buildRoutesAux_ok_mem (rl : List String) (acc table : List (String × List String))
    (kv : String × List String)
    (hok : buildRoutesAux acc rl = Except.ok table) (hkv : kv ∈ table) :
    kv ∈ acc ∨ ∃ e ∈ rl, parseRouteEntry e = Except.ok kv := by
  induction rl generalizing acc with
  | nil =>
    unfold buildRoutesAux at hok
    cases hok
    left; exact hkv
  | cons x rest ih =>
    unfold buildRoutesAux at hok
    cases hx : parseRouteEntry x with
    | error m => rw [hx] at hok; cases hok
    | ok p =>
      obtain ⟨k, bs⟩ := p
      rw [hx] at hok
      rcases ih (insertRoute k bs acc) hok with hacc | ⟨e, he, hpe⟩
      · rcases insertRoute_mem k bs acc kv hacc with rfl | h'
        · right; exact ⟨x, List.mem_cons_self x rest, hx⟩
        · left; exact h'
      · right; exact ⟨e, List.mem_cons_of_mem x he, hpe⟩

/-- C7: route-table construction fails fatally at startup on any malformed
entry (missing `=`, empty domain, empty endpoint list, or an endpoint
rejected by `net.SplitHostPort` validation), and every key stored in a
successfully built table is the entry's domain half with a trailing dot
appended when absent, then lower-cased. -/
theorem buildRoutes_validation (rl : List String) :
    (∀ e ∈ rl, malformedEntry e = true → ∃ m, buildRoutes rl = Except.error m) ∧
    (∀ table, buildRoutes rl = Except.ok table →
      ∀ kv ∈ table, ∃ e ∈ rl, ∃ dom eps, goSplitN2 '=' e = [dom, eps] ∧
        kv.1 = goToLower (if goHasSuffix dom "." then dom else dom ++ ".") ∧
        kv.2 = goSplitComma eps) := by
  constructor
  · intro e he hmal
    obtain ⟨m, hm⟩ := parseRouteEntry_error_of_malformed e hmal
    exact buildRoutesAux_error rl [] e he m hm
  · intro table hok kv hkv
    rcases buildRoutesAux_ok_mem rl [] table kv hok hkv with hacc | ⟨e, he, hpe⟩
    · cases hacc
    · obtain ⟨k0, bs0⟩ := kv
      obtain ⟨dom, eps, hsplit, hkey, hbs⟩ := parseRouteEntry_ok_key e k0 bs0 hpe
      exact ⟨e, he, dom, eps, hsplit, hkey, hbs⟩

/-- Witness for C7: the entry without `=` is rejected fatally, and the
accepted mixed-case entry `.Example.com=1.2.3.4:53` is stored under the
normalized key `.example.com.`. -/
theorem buildRoutes_validation_witness :
    (∃ m, buildRoutes ["noequals"] = Except.error m) ∧
    (∃ e ∈ [".Example.com=1.2.3.4:53"], ∃ dom eps,
      goSplitN2 '=' e = [dom, eps] ∧
      ".example.com." = goToLower (if goHasSuffix dom "." then dom else dom ++ ".") ∧
      ["1.2.3.4:53"] = goSplitComma eps) :=
  ⟨(buildRoutes_validation ["noequals"]).1 "noequals" (by decide) (by decide),
   (buildRoutes_validation [".Example.com=1.2.3.4:53"]).2
     [(".example.com.", ["1.2.3.4:53"])] (by rfl)
     (".example.com.", ["1.2.3.4:53"]) (by decide)⟩

end DnsRevProxy
